import Mathlib

/-!
Verification development for the Reaction-Predictor reagent scoring and
analytics engine.  The definitions below are shallow embeddings of the
Python source under src/: numbers are modelled as exact rationals,
Python dicts as association lists, and Python lists as Lean lists.
Python's float number type is idealised as rational arithmetic; the one
irrational library operation (math.sqrt, used by the frequency-prior
blenders) is passed in as an explicit function parameter so that each
theorem can state exactly which square-root facts it relies on.
-/

/-! ## Generic helpers shared by several embedded functions -/

/-- Python round(x, 3): rounding to three decimals.  Modelled with
round-half-up; the source only hits this function at arguments that are
not exact half-multiples of 1/1000, where half-up and Python's
round-half-even agree. -/
def round3 (x : ℚ) : ℚ := (⌊x * 1000 + 1/2⌋ : ℚ) / 1000

/-- First-match lookup in an association list (Python dict lookup; the
dicts built below never carry duplicate keys). -/
def alookup : List (String × ℚ) → String → Option ℚ
  | [], _ => none
  | (k, v) :: t, s => if k = s then some v else alookup t s

/-- Python dict assignment d[k] = v: overwrite in place if the key is
present (keeping its position), else append. -/
def dinsert : List (String × ℚ) → String → ℚ → List (String × ℚ)
  | [], k, v => [(k, v)]
  | (a, b) :: t, k, v => if a = k then (k, v) :: t else (a, b) :: dinsert t k v

/-- Python dict .get(k, d). -/
def dget (m : List (String × ℚ)) (k : String) (d : ℚ) : ℚ :=
  match alookup m k with
  | some v => v
  | none => d

/-- Insert into a list sorted descending by key, before the first
element with a key that is not larger (ties keep the inserted element
first). -/
def insertDescBy {α : Type} (key : α → ℚ) (x : α) : List α → List α
  | [] => [x]
  | y :: ys => if key y ≤ key x then x :: y :: ys else y :: insertDescBy key x ys

/-- Stable sort, descending by key.  Python's list.sort(key=...,
reverse=True) is a stable descending sort; any stable descending sort
computes the same list, so this insertion sort is an exact model. -/
def sortDescBy {α : Type} (key : α → ℚ) : List α → List α
  | [] => []
  | x :: xs => insertDescBy key x (sortDescBy key xs)

/-- Insert into a list sorted ascending (Python sorted()). -/
def insertAsc (x : ℚ) : List ℚ → List ℚ
  | [] => [x]
  | y :: ys => if x ≤ y then x :: y :: ys else y :: insertAsc x ys

/-- Python sorted(arr) for numeric arrays. -/
def pysorted : List ℚ → List ℚ
  | [] => []
  | x :: xs => insertAsc x (pysorted xs)

/-- Drop leading and trailing whitespace from a character list
(Python str.strip()). -/
def trimL (l : List Char) : List Char :=
  ((l.dropWhile Char.isWhitespace).reverse.dropWhile Char.isWhitespace).reverse

/-- Python str.strip(). -/
def pystrip (s : String) : String := String.mk (trimL s.toList)

/-- Python str.lower() (character-wise ASCII lowercasing). -/
def pylower (s : String) : String := String.mk (s.toList.map Char.toLower)

/-- Python str.strip(chars): drop leading and trailing characters drawn
from the given set. -/
def stripChars (cs : List Char) (l : List Char) : List Char :=
  ((l.dropWhile cs.contains).reverse.dropWhile cs.contains).reverse

/-- Split a character list at commas (Python str.split(",")). -/
def splitComma : List Char → List (List Char)
  | [] => [[]]
  | c :: t =>
    if c = ',' then [] :: splitComma t
    else
      match splitComma t with
      | [] => [[c]]
      | h :: r => (c :: h) :: r

/-- Parse a decimal digit run into a natural number. -/
def digitsVal : List Char → ℕ → ℕ
  | [], acc => acc
  | c :: t, acc => digitsVal t (acc * 10 + (c.toNat - 48))

/-- Python float(s) on plain decimal strings: optional surrounding
whitespace, optional sign, digits with an optional fractional part and
an optional exponent.  (The special float syntaxes inf/nan/underscores
never occur in the embedded call sites.)  Returns none where Python
raises ValueError. -/
def pyFloat (s : String) : Option ℚ :=
  let l := trimL s.toList
  let signRest : Bool × List Char :=
    match l with
    | '-' :: t => (true, t)
    | '+' :: t => (false, t)
    | t => (false, t)
  let neg := signRest.1
  let l1 := signRest.2
  let intDigits := l1.takeWhile Char.isDigit
  let rest1 := l1.dropWhile Char.isDigit
  let mantissaRest : Option (ℚ × List Char) :=
    match rest1 with
    | '.' :: r2 =>
      let fracDigits := r2.takeWhile Char.isDigit
      let rest2 := r2.dropWhile Char.isDigit
      if intDigits = [] ∧ fracDigits = [] then none
      else some
        (((digitsVal intDigits 0 : ℚ) +
          (digitsVal fracDigits 0 : ℚ) / ((10 : ℚ) ^ fracDigits.length)), rest2)
    | r =>
      if intDigits = [] then none
      else some ((digitsVal intDigits 0 : ℚ), r)
  match mantissaRest with
  | none => none
  | some (m, rest) =>
    let v : Option ℚ :=
      match rest with
      | [] => some m
      | e :: r3 =>
        if e = 'e' ∨ e = 'E' then
          let esignRest : Bool × List Char :=
            match r3 with
            | '-' :: t => (true, t)
            | '+' :: t => (false, t)
            | t => (false, t)
          let eDigits := esignRest.2.takeWhile Char.isDigit
          let rest4 := esignRest.2.dropWhile Char.isDigit
          if eDigits = [] ∨ rest4 ≠ [] then none
          else
            let ev : ℤ := if esignRest.1 then -(digitsVal eDigits 0 : ℤ) else (digitsVal eDigits 0 : ℤ)
            some (m * (10 : ℚ) ^ ev)
        else none
    match v with
    | none => none
    | some q => some (if neg then -q else q)

/-! ## Reaction-compatibility parsers (src/reagents/ligand.py,
solvent.py, base.py) -/

/-- The five canonical reaction categories, in the order used by all
three compatibility parsers. -/
def reaction_types5 : List String :=
  ["Cross-Coupling", "Hydrogenation", "Metathesis", "C-H_Activation", "Carbonylation"]

/-- Shared body of the three parsers: split the compatibility string at
commas, convert every piece with float(), and select the slot of the
requested (already canonical) reaction type; any conversion failure, or
a short vector, yields the neutral 0.5.  Mirrors the try/except block of
the Python sources. -/
def parse_compat_scores (compatibility_str : String) (reaction_type : String) : ℚ :=
  match (splitComma compatibility_str.toList).mapM (fun cs => pyFloat (String.mk cs)) with
  | none => 1/2
  | some scores =>
    let reaction_idx := reaction_types5.indexOf reaction_type
    match scores.get? reaction_idx with
    | some v => v
    | none => 1/2

/-- src/reagents/ligand.py parse_reaction_compatibility. -/
def parse_reaction_compatibility (compatibility_str : String) (reaction_type : String) : ℚ :=
  if reaction_type ∈ reaction_types5 then
    parse_compat_scores compatibility_str reaction_type
  else 1/2

/-- src/reagents/solvent.py parse_solvent_reaction_compatibility
(same body as the ligand parser). -/
def parse_solvent_reaction_compatibility (compatibility_str : String) (reaction_type : String) : ℚ :=
  if reaction_type ∈ reaction_types5 then
    parse_compat_scores compatibility_str reaction_type
  else 1/2

/-- src/reagents/base.py parse_base_reaction_compatibility: first maps
the specialised type string 'ullmann' (case-insensitively) to the
Cross-Coupling bucket, then proceeds like the other two parsers. -/
def parse_base_reaction_compatibility (compatibility_str : String) (reaction_type : String) : ℚ :=
  let rt := if pylower reaction_type = "ullmann" then "Cross-Coupling" else reaction_type
  if rt ∈ reaction_types5 then
    parse_compat_scores compatibility_str rt
  else 1/2

/-! ## Reaction-specific feature-weight tables and weighted similarity
(src/reagents/ligand.py, solvent.py, base.py) -/

/-- src/reagents/ligand.py REACTION_WEIGHTS, in source order. -/
def REACTION_WEIGHTS : List (String × List (String × ℚ)) :=
  [("Cross-Coupling",
     [("Cone Angle (°)", 0.25), ("Electronic Parameter (cm⁻¹)", 0.20),
      ("Bite Angle (°)", 0.15), ("Steric Bulk (Å³)", 0.15),
      ("Donor Strength (pKa)", 0.10), ("Price Category", 0.05),
      ("Coordination Mode", 0.10)]),
   ("Hydrogenation",
     [("Cone Angle (°)", 0.15), ("Electronic Parameter (cm⁻¹)", 0.30),
      ("Bite Angle (°)", 0.15), ("Steric Bulk (Å³)", 0.10),
      ("Donor Strength (pKa)", 0.15), ("Price Category", 0.05),
      ("Coordination Mode", 0.10)]),
   ("Metathesis",
     [("Cone Angle (°)", 0.20), ("Electronic Parameter (cm⁻¹)", 0.25),
      ("Bite Angle (°)", 0.10), ("Steric Bulk (Å³)", 0.15),
      ("Donor Strength (pKa)", 0.05), ("Price Category", 0.10),
      ("Coordination Mode", 0.15)]),
   ("C-H_Activation",
     [("Cone Angle (°)", 0.20), ("Electronic Parameter (cm⁻¹)", 0.25),
      ("Bite Angle (°)", 0.10), ("Steric Bulk (Å³)", 0.10),
      ("Donor Strength (pKa)", 0.15), ("Price Category", 0.05),
      ("Coordination Mode", 0.15)]),
   ("Carbonylation",
     [("Cone Angle (°)", 0.20), ("Electronic Parameter (cm⁻¹)", 0.20),
      ("Bite Angle (°)", 0.15), ("Steric Bulk (Å³)", 0.15),
      ("Donor Strength (pKa)", 0.15), ("Price Category", 0.05),
      ("Coordination Mode", 0.10)])]

/-- src/reagents/solvent.py SOLVENT_REACTION_WEIGHTS, in source order. -/
def SOLVENT_REACTION_WEIGHTS : List (String × List (String × ℚ)) :=
  [("Cross-Coupling",
     [("Dielectric Constant", 0.15), ("Polarity Index", 0.20),
      ("Boiling Point (°C)", 0.10), ("Density (g/mL)", 0.05),
      ("Dipole Moment (D)", 0.15), ("Donor Number (DN)", 0.25),
      ("Hydrogen Bond Donor", 0.10)]),
   ("Hydrogenation",
     [("Dielectric Constant", 0.10), ("Polarity Index", 0.15),
      ("Boiling Point (°C)", 0.15), ("Density (g/mL)", 0.05),
      ("Dipole Moment (D)", 0.10), ("Donor Number (DN)", 0.35),
      ("Hydrogen Bond Donor", 0.10)]),
   ("Metathesis",
     [("Dielectric Constant", 0.20), ("Polarity Index", 0.25),
      ("Boiling Point (°C)", 0.15), ("Density (g/mL)", 0.05),
      ("Dipole Moment (D)", 0.10), ("Donor Number (DN)", 0.05),
      ("Hydrogen Bond Donor", 0.20)]),
   ("C-H_Activation",
     [("Dielectric Constant", 0.15), ("Polarity Index", 0.25),
      ("Boiling Point (°C)", 0.20), ("Density (g/mL)", 0.05),
      ("Dipole Moment (D)", 0.15), ("Donor Number (DN)", 0.10),
      ("Hydrogen Bond Donor", 0.10)]),
   ("Carbonylation",
     [("Dielectric Constant", 0.15), ("Polarity Index", 0.20),
      ("Boiling Point (°C)", 0.10), ("Density (g/mL)", 0.05),
      ("Dipole Moment (D)", 0.20), ("Donor Number (DN)", 0.20),
      ("Hydrogen Bond Donor", 0.10)])]

/-- src/reagents/base.py BASE_REACTION_WEIGHTS, in source order. -/
def BASE_REACTION_WEIGHTS : List (String × List (String × ℚ)) :=
  [("Cross-Coupling", [("Basicity (pKaH)", 0.35), ("Nucleophilicity Index", 0.25)]),
   ("Hydrogenation", [("Basicity (pKaH)", 0.10), ("Nucleophilicity Index", 0.10)]),
   ("Metathesis", [("Basicity (pKaH)", 0.15), ("Nucleophilicity Index", 0.10)]),
   ("C-H_Activation", [("Basicity (pKaH)", 0.25), ("Nucleophilicity Index", 0.20)]),
   ("Carbonylation", [("Basicity (pKaH)", 0.20), ("Nucleophilicity Index", 0.15)])]

/-- Total weight of one weight table. -/
def weights_total (t : List (String × ℚ)) : ℚ := (t.map Prod.snd).sum

/-- Feature order used by calculate_weighted_similarity (ligand.py). -/
def ligand_feature_names : List String :=
  ["Cone Angle (°)", "Electronic Parameter (cm⁻¹)", "Bite Angle (°)",
   "Steric Bulk (Å³)", "Donor Strength (pKa)", "Price Category",
   "Coordination Mode"]

/-- Feature order used by calculate_solvent_weighted_similarity
(solvent.py). -/
def solvent_feature_names : List String :=
  ["Dielectric Constant", "Polarity Index", "Boiling Point (°C)",
   "Density (g/mL)", "Dipole Moment (D)", "Donor Number (DN)",
   "Hydrogen Bond Donor"]

/-- Feature order used by _weighted_similarity (base.py). -/
def base_feature_names : List String :=
  ["Basicity (pKaH)", "Nucleophilicity Index"]

/-- One feature's similarity contribution:
weight * (1 - |a - b| / max(|a|, |b|, 1)). -/
def sim_contribution (w a b : ℚ) : ℚ :=
  w * (1 - |a - b| / max (max |a| |b|) 1)

/-- Accumulating loop shared by the three weighted-similarity scorers:
for each enumerated feature name present in the weight table, add its
contribution.  The feature vectors are indexed positionally, defaulting
to 0 beyond their length (the sources always pass full-length vectors). -/
def sim_loop (f1 f2 : List ℚ) (weights : List (String × ℚ)) : ℕ → List String → ℚ → ℚ
  | _, [], sim => sim
  | i, feat :: rest, sim =>
    sim_loop f1 f2 weights (i + 1) rest
      (match alookup weights feat with
       | none => sim
       | some w => sim + sim_contribution w (f1.getD i 0) (f2.getD i 0))

/-- src/reagents/ligand.py calculate_weighted_similarity. -/
def calculate_weighted_similarity (f1 f2 : List ℚ) (weights : List (String × ℚ)) : ℚ :=
  sim_loop f1 f2 weights 0 ligand_feature_names 0

/-- src/reagents/solvent.py calculate_solvent_weighted_similarity. -/
def calculate_solvent_weighted_similarity (f1 f2 : List ℚ) (weights : List (String × ℚ)) : ℚ :=
  sim_loop f1 f2 weights 0 solvent_feature_names 0

/-- src/reagents/base.py _weighted_similarity. -/
def _weighted_similarity (f1 f2 : List ℚ) (weights : List (String × ℚ)) : ℚ :=
  sim_loop f1 f2 weights 0 base_feature_names 0

/-! ## The ligand recommender (src/reagents/ligand.py
recommend_ligands_for_reaction, target_ligand=None path) -/

/-- One row of the ligand dataframe, restricted to the columns the
recommender reads.  The dataframe itself is the fixed table built by
create_ligand_dataframe; the recommender is embedded as a function of
its row list. -/
structure LigandRow where
  Ligand : String
  Reaction_Compatibility : String
  Typical_Applications : String
deriving DecidableEq

/-- One returned ligand recommendation. -/
structure LigandRec where
  rank : ℕ
  ligand : String
  compatibility_score : ℚ
  applications : String
  reaction_suitability : String
deriving DecidableEq

/-- Intermediate entry of the compatible_ligands list. -/
structure CompatEntry where
  name : String
  compatibility : ℚ
  applications : String
deriving DecidableEq

/-- Final enumeration loop: ranks start at 1, scores are rounded to
three decimals, and each record is tagged with the requested
reaction-type label. -/
def mk_ligand_recs (reaction_type : String) : ℕ → List CompatEntry → List LigandRec
  | _, [] => []
  | i, e :: t =>
    ⟨i + 1, e.name, round3 e.compatibility, e.applications, reaction_type⟩ ::
      mk_ligand_recs reaction_type (i + 1) t

/-- src/reagents/ligand.py recommend_ligands_for_reaction with
target_ligand=None (no reference-similarity re-ranking): filter rows by
parsed compatibility ≥ min_compatibility, stable-sort descending by
compatibility, truncate to top_n, then build the output records.
Contains no copper-mediated (Ullmann) ligand-family adjustment. -/
def recommend_ligands_for_reaction (rows : List LigandRow) (reaction_type : String)
    (top_n : ℕ) (min_compatibility : ℚ) : List LigandRec :=
  let compatible := rows.filterMap (fun row =>
    let c := parse_reaction_compatibility row.Reaction_Compatibility reaction_type
    if min_compatibility ≤ c then some (⟨row.Ligand, c, row.Typical_Applications⟩ : CompatEntry)
    else none)
  let sortedEntries := sortDescBy (fun e => e.compatibility) compatible
  mk_ligand_recs reaction_type 0 (sortedEntries.take top_n)

/-! ## Token normalization (src/analytics/normalization.py) -/

/-- Character-level model of unicodedata.normalize("NFKC", ...) on the
characters this code base feeds it: NFKC sends U+00B5 MICRO SIGN to
U+03BC GREEK SMALL LETTER MU and is the identity on ASCII and on U+03BC
itself. -/
def nfkcChar (c : Char) : Char := if c = 'µ' then 'μ' else c

/-- Character-level model of str.casefold(), which agrees with ASCII
lowercasing on ASCII input and fixes U+03BC. -/
def casefoldChar (c : Char) : Char := c.toLower

/-- Lowercase-letter-or-digit test, the complement of the source regex
character class [^a-z0-9]. -/
def isLowerAlnum (c : Char) : Bool := ('a' ≤ c ∧ c ≤ 'z') ∨ ('0' ≤ c ∧ c ≤ '9')

/-- src/analytics/normalization.py canonicalize: NFKC-normalize,
casefold, strip, substitute the micro sign, replace runs of
non-alphanumerics by spaces, then delete all whitespace.  (Replacing a
run by one space and then deleting every whitespace character is the
same as mapping each non-alphanumeric character to a space before the
deletion, which is how the last two steps are written here.) -/
def canonicalize (token : String) : String :=
  let s1 := (token.toList.map nfkcChar).map casefoldChar
  let s2 := trimL s1
  let s3 := s2.map (fun c => if c = 'µ' then 'u' else c)
  let s4 := s3.map (fun c => if isLowerAlnum c then c else ' ')
  String.mk (s4.filter (fun c => ¬ c.isWhitespace))

/-- src/analytics/normalization.py BASE_SYNONYMS, in source order. -/
def BASE_SYNONYMS : List (String × List String) :=
  [("k2co3", ["potassium carbonate", "k_2co_3", "potassium carbonate (k2co3)", "potassiumcarbonate"]),
   ("cs2co3", ["cesium carbonate", "cesium carbonate (cs2co3)", "caesium carbonate"]),
   ("na2co3", ["sodium carbonate", "sodium carbonate (na2co3)"]),
   ("kotbu", ["potassium tert-butoxide", "potassium t-butoxide", "t-buok", "buok", "tbuok"]),
   ("naotbu", ["sodium tert-butoxide", "sodium t-butoxide"]),
   ("k3po4", ["tripotassium phosphate", "potassium phosphate", "kpo4", "tripotassiumphosphate"]),
   ("koac", ["potassium acetate", "k acetate"]),
   ("naome", ["sodium methoxide", "na ome"]),
   ("koh", ["potassium hydroxide"]),
   ("naoh", ["sodium hydroxide"]),
   ("tea", ["triethylamine", "et3n"]),
   ("dipea", ["diisopropylethylamine", "hunig\x27s base"])]

/-- src/analytics/normalization.py SOLVENT_SYNONYMS, in source order. -/
def SOLVENT_SYNONYMS : List (String × List String) :=
  [("dmf", ["n,n-dimethylformamide", "dimethylformamide"]),
   ("dmso", ["dimethyl sulfoxide", "dms o", "dm s o", "dimethylsulfoxide", "dimethyl sulphoxide"]),
   ("toluene", ["phme"]),
   ("meoh", ["methanol"]),
   ("etoh", ["ethanol"]),
   ("acn", ["acetonitrile", "me cn", "mecn", "me-c n"]),
   ("nmp", ["n-methyl-2-pyrrolidone", "n-methylpyrrolidone"])]

/-- src/analytics/normalization.py LIGAND_SYNONYMS, in source order. -/
def LIGAND_SYNONYMS : List (String × List String) :=
  [("l-proline", ["l proline", "proline"]),
   ("phen", ["1,10-phenanthroline", "o-phenanthroline", "phenanthroline"]),
   ("bipy", ["2,2\x27-bipyridine", "bipyridine"]),
   ("pPh3", ["triphenylphosphine", "p(ph)3", "p ph3"]),
   ("xphos", ["x-phos"])]

/-- src/analytics/normalization.py METAL_SYNONYMS, in source order. -/
def METAL_SYNONYMS : List (String × List String) :=
  [("cu", ["copper", "cui", "cu(i)", "cu(ii)", "cuprous iodide", "cupric acetate"]),
   ("pd", ["palladium"]),
   ("ni", ["nickel"])]

/-- Iteration of synonym_lookup over the table entries: first compare
the canonicalized token with the key, then with each canonicalized
synonym; fall through to the next entry. -/
def synonym_scan (ctok : String) : List (String × List String) → String
  | [] => ctok
  | (k, vals) :: t =>
    if ctok = k then k
    else if vals.any (fun v => canonicalize v == ctok) then k
    else synonym_scan ctok t

/-- src/analytics/normalization.py synonym_lookup. -/
def synonym_lookup (tok : String) (table : List (String × List String)) : String :=
  synonym_scan (canonicalize tok) table

/-- src/analytics/normalization.py map_base. -/
def map_base (name : String) : String := synonym_lookup name BASE_SYNONYMS

/-- The "DMS O" → "DMSO" pre-substitution performed by map_solvent,
replacing each non-overlapping occurrence left to right. -/
def replaceDMSO : List Char → List Char
  | 'D' :: 'M' :: 'S' :: ' ' :: 'O' :: t => 'D' :: 'M' :: 'S' :: 'O' :: replaceDMSO t
  | c :: t => c :: replaceDMSO t
  | [] => []

/-- src/analytics/normalization.py map_solvent. -/
def map_solvent (name : String) : String :=
  synonym_lookup (String.mk (replaceDMSO name.toList)) SOLVENT_SYNONYMS

/-- src/analytics/normalization.py map_ligand. -/
def map_ligand (name : String) : String := synonym_lookup name LIGAND_SYNONYMS

/-- src/analytics/normalization.py map_metal. -/
def map_metal (name : String) : String := synonym_lookup name METAL_SYNONYMS

/-! ## Aggregation of rows (src/analytics/aggregate.py) -/

/-- One historical reaction observation (src/analytics/adapters.py
UnifiedRow), restricted to the fields the aggregator reads. -/
structure UnifiedRow where
  reaction_type : String
  metal : Option String
  ligand : Option String
  base : Option String
  solvent : Option String
  temperature_c : Option ℚ
  time_h : Option ℚ
  yield_pct : Option ℚ
deriving DecidableEq

/-- Bool test for Python's "needle in haystack" on strings. -/
def substrB (needle : List Char) : List Char → Bool
  | [] => needle.isEmpty
  | c :: t => needle.isPrefixOf (c :: t) || substrB needle t

/-- Row filter of aggregate_ullmann: keep rows whose canonicalized
reaction type contains the substring "ullmann". -/
def is_ullmann_row (r : UnifiedRow) : Bool :=
  substrB "ullmann".toList (canonicalize r.reaction_type).toList

/-- Dispatch of _normalize_field on its kind tag. -/
def map_kind (kind : String) (p : String) : String :=
  if kind = "base" then map_base p
  else if kind = "solvent" then map_solvent p
  else if kind = "ligand" then map_ligand p
  else if kind = "metal" then map_metal p
  else canonicalize p

/-- The token list built by _normalize_field before deduplication:
strip the raw cell, strip surrounding brackets, split at commas keeping
only pieces that are non-blank after stripping, strip quotes from each
piece, then map each piece through the kind-specific synonym mapper.
When no piece survives the split, the whole bracket-stripped string is
processed as a single piece. -/
def _normalize_field_tokens (name : Option String) (kind : String) : List String :=
  match name with
  | none => []
  | some nm =>
    if nm = "" then []
    else
      let s := stripChars ['[', ']'] (trimL nm.toList)
      let parts := ((splitComma s).filter (fun p => trimL p ≠ [])).map
        (fun p => stripChars ['\x27'] (stripChars ['"'] (trimL p)))
      let pieces := if parts = [] then [s] else parts
      (pieces.filter (fun p => p ≠ [])).map (fun p => map_kind kind (String.mk p))

/-- The dedupe loop of _normalize_field: keep the first occurrence of
each non-empty token, tracking what has been seen. -/
def dedupe_seen (seen : List String) : List String → List String
  | [] => []
  | x :: xs =>
    if x = "" then dedupe_seen seen xs
    else if x ∈ seen then dedupe_seen seen xs
    else x :: dedupe_seen (x :: seen) xs

/-- src/analytics/aggregate.py _normalize_field. -/
def _normalize_field (name : Option String) (kind : String) : List String :=
  dedupe_seen [] (_normalize_field_tokens name kind)

/-- Number of times the co-occurrence loops of aggregate_ullmann
increment the counter of pair p for one row, given the row's
normalized ligand and solvent token lists (the two nested for-loops
over the Cartesian product). -/
def rowPairIncrements (ligs sols : List String) (p : String × String) : ℕ :=
  ligs.foldl (fun acc lg =>
    sols.foldl (fun acc2 sv => if (lg, sv) = p then acc2 + 1 else acc2) acc) 0

/-- Value of the ligand-solvent co-occurrence counter co_lig_sol at key
p after aggregate_ullmann has processed the given rows. -/
def co_ligand_solvent_count (rows : List UnifiedRow) (p : String × String) : ℕ :=
  (rows.filter is_ullmann_row).foldl
    (fun acc r =>
      acc + rowPairIncrements (_normalize_field r.ligand "ligand")
        (_normalize_field r.solvent "solvent") p) 0

/-! ## Winsorized percentile statistics (src/analytics/aggregate.py
_pctile, _winsorize, numeric_stats) -/

/-- Nearest-rank index floor((n-1)*q), as computed by
int((len(arr_sorted)-1)*q).  For the q used here (all in [0,1]) int()
truncation and floor agree, and the exact rational product has the same
floor as the Python float product at every reachable array size. -/
def pctile_idx (n : ℕ) (q : ℚ) : ℕ := (⌊((n - 1 : ℕ) : ℚ) * q⌋).toNat

/-- src/analytics/aggregate.py _pctile. -/
def _pctile (arr : List ℚ) (q : ℚ) : Option ℚ :=
  if arr = [] then none
  else (pysorted arr).get? (pctile_idx arr.length q)

/-- The clamping lambda inside _winsorize. -/
def winsor_clamp (lo hi v : ℚ) : ℚ :=
  if v < lo then lo else if v > hi then hi else v

/-- src/analytics/aggregate.py _winsorize with its default bounds
low=0.05, high=0.95. -/
def _winsorize (arr : List ℚ) : List ℚ :=
  if arr = [] then arr
  else
    let s := pysorted arr
    match _pctile s (1/20), _pctile s (19/20) with
    | some lo, some hi => s.map (winsor_clamp lo hi)
    | _, _ => s

/-- One numeric_stats entry as built by aggregate_ullmann. -/
structure StatsEntry where
  median : Option ℚ
  p25 : Option ℚ
  p75 : Option ℚ
  n : ℕ
deriving DecidableEq

/-- The numeric_stats block for one collected array: percentiles of the
winsorized array, but n of the original array. -/
def numeric_stats_entry (arr : List ℚ) : StatsEntry :=
  { median := _pctile (_winsorize arr) (1/2)
    p25 := _pctile (_winsorize arr) (1/4)
    p75 := _pctile (_winsorize arr) (3/4)
    n := arr.length }

/-- The three collected numeric arrays of aggregate_ullmann. -/
def collected_temps (rows : List UnifiedRow) : List ℚ :=
  (rows.filter is_ullmann_row).filterMap (fun r => r.temperature_c)

/-- Collected reaction times. -/
def collected_times (rows : List UnifiedRow) : List ℚ :=
  (rows.filter is_ullmann_row).filterMap (fun r => r.time_h)

/-- Collected yields. -/
def collected_yields (rows : List UnifiedRow) : List ℚ :=
  (rows.filter is_ullmann_row).filterMap (fun r => r.yield_pct)

/-! ## Frequency-prior blending
(src/enhanced_recommendation_engine.py _extract_priors and
_apply_freq_priors_solvents / _bases / _ligands) -/

/-- One recommendation dict, restricted to the fields the blenders read
and write: the reagent name (solvent / base / ligand key) and the
compatibility score. -/
structure Rec where
  name : String
  compatibility_score : ℚ
deriving DecidableEq

/-- The analytics-priors configuration installed by
EnhancedRecommendationEngine.__init__ (self._analytics_cfg). -/
structure AnalyticsCfg where
  w_freq : ℚ
  w_freq_solvents : ℚ
  w_freq_bases : ℚ
  w_freq_ligands : ℚ
  soft_penalty : Bool
  penalty_factor : ℚ
  penalty_factor_solvents : ℚ
  penalty_factor_bases : ℚ
  penalty_factor_ligands : ℚ
  min_support_pct : ℚ

/-- The constants hard-coded in __init__. -/
def default_analytics_cfg : AnalyticsCfg :=
  { w_freq := 0.30
    w_freq_solvents := 0.45
    w_freq_bases := 0.40
    w_freq_ligands := 0.35
    soft_penalty := true
    penalty_factor := 0.85
    penalty_factor_solvents := 0.85
    penalty_factor_bases := 0.85
    penalty_factor_ligands := 0.88
    min_support_pct := 0.01 }

/-- float(cfg.get('min_support_pct', 0.01) or 0.01): a configured value
of 0 is falsy in Python and falls back to 0.01. -/
def min_pct_of (cfg : AnalyticsCfg) : ℚ :=
  if cfg.min_support_pct = 0 then 1/100 else cfg.min_support_pct

/-- src/enhanced_recommendation_engine.py _extract_priors on one top
list (each entry already split into name and pct): strip names, drop
blank names and non-positive pct, build a dict, and return None when
nothing is left. -/
def _extract_priors (top : List (String × ℚ)) : Option (List (String × ℚ)) :=
  let pri := top.foldl
    (fun m it => if pystrip it.1 = "" ∨ it.2 ≤ 0 then m else dinsert m (pystrip it.1) it.2) []
  if pri = [] then none else some pri

/-- The _canon helper of _apply_freq_priors_solvents: strip, lowercase,
delete spaces, and send the known spellings of DMSO to the analytics
key "dms o". -/
def _canon_solvent (name : String) : String :=
  let s := pystrip name
  let s_low := String.mk ((s.toList.map Char.toLower).filter (fun c => c ≠ ' '))
  if s_low = "dmso" ∨ s_low = "dms o" ∨ s_low = "dimethylsulfoxide" then "dms o" else s_low

/-- Index of the last occurrence of a character (Python str.rfind on a
string known to contain the character). -/
def lastIdxOf (c : Char) (l : List Char) : ℕ :=
  (l.foldl (fun (st : ℕ × ℕ) x => (if x = c then st.2 else st.1, st.2 + 1)) (0, 0)).1

/-- The _canon_base helper of _apply_freq_priors_bases: strip, favour a
non-blank parenthesised formula (between the last '(' and the last ')')
when both parentheses occur, then lowercase and delete spaces. -/
def _canon_base (name : String) : String :=
  let s := pystrip name
  let cs := s.toList
  let s2 :=
    if '(' ∈ cs ∧ ')' ∈ cs then
      let i := lastIdxOf '(' cs
      let j := lastIdxOf ')' cs
      let inner := pystrip (String.mk ((cs.drop (i + 1)).take (j - (i + 1))))
      if inner = "" then s else inner
    else s
  String.mk ((s2.toList.map Char.toLower).filter (fun c => c ≠ ' '))

/-- The _canon helper of _apply_freq_priors_ligands: strip and
casefold. -/
def _canon_ligand (name : String) : String :=
  String.mk ((pystrip name).toList.map casefoldChar)

/-- The canonicalized priors dict comprehension
pri_map = canon(k) -> v, built in iteration order. -/
def pri_map_of (canon : String → String) (pri : List (String × ℚ)) : List (String × ℚ) :=
  pri.foldl (fun m kv => dinsert m (canon kv.1) kv.2) []

/-- Per-recommendation blending step shared by the three
_apply_freq_priors functions: for a positive base score, boost by
min(1, base * (1 + w * sqrt(pct))) when the canonical name has
pct ≥ min_pct, soft-penalize by max(0, base * pen) otherwise (when the
soft_penalty flag is set); round the result to three decimals into a
fresh record. -/
def blend_one (w pen min_pct : ℚ) (soft : Bool) (sqrtf : ℚ → ℚ)
    (pri_map : List (String × ℚ)) (canon : String → String) (r : Rec) : Rec :=
  let base := r.compatibility_score
  let pct := dget pri_map (canon r.name) 0
  let adj :=
    if 0 < base then
      if min_pct ≤ pct then min 1 (base * (1 + w * sqrtf pct))
      else if soft then max 0 (base * pen) else base
    else base
  ⟨r.name, round3 adj⟩

/-- src/enhanced_recommendation_engine.py _apply_freq_priors_solvents:
extract the priors from the summary's top.solvents list (returning the
input unchanged when empty), blend every entry into a fresh record, and
stable-sort descending by the blended score. -/
def _apply_freq_priors_solvents (sqrtf : ℚ → ℚ) (cfg : AnalyticsCfg)
    (solvents : List Rec) (top_solvents : List (String × ℚ)) : List Rec :=
  match _extract_priors top_solvents with
  | none => solvents
  | some pri =>
    let pm := pri_map_of _canon_solvent pri
    sortDescBy (fun r => r.compatibility_score)
      (solvents.map
        (blend_one cfg.w_freq_solvents cfg.penalty_factor_solvents (min_pct_of cfg)
          cfg.soft_penalty sqrtf pm _canon_solvent))

/-- src/enhanced_recommendation_engine.py _apply_freq_priors_bases. -/
def _apply_freq_priors_bases (sqrtf : ℚ → ℚ) (cfg : AnalyticsCfg)
    (bases : List Rec) (top_bases : List (String × ℚ)) : List Rec :=
  match _extract_priors top_bases with
  | none => bases
  | some pri =>
    let pm := pri_map_of _canon_base pri
    sortDescBy (fun r => r.compatibility_score)
      (bases.map
        (blend_one cfg.w_freq_bases cfg.penalty_factor_bases (min_pct_of cfg)
          cfg.soft_penalty sqrtf pm _canon_base))

/-- src/enhanced_recommendation_engine.py _apply_freq_priors_ligands. -/
def _apply_freq_priors_ligands (sqrtf : ℚ → ℚ) (cfg : AnalyticsCfg)
    (ligands : List Rec) (top_ligands : List (String × ℚ)) : List Rec :=
  match _extract_priors top_ligands with
  | none => ligands
  | some pri =>
    let pm := pri_map_of _canon_ligand pri
    sortDescBy (fun r => r.compatibility_score)
      (ligands.map
        (blend_one cfg.w_freq_ligands cfg.penalty_factor_ligands (min_pct_of cfg)
          cfg.soft_penalty sqrtf pm _canon_ligand))

/-! ## Heap-level model of the blenders
(for the aliasing and exception behaviour of
_apply_freq_priors_solvents / _bases / _ligands)

Python recommendation dicts live on a heap and are passed by reference.
To express "the function never mutates its input dicts and returns the
input list unchanged when an internal exception occurs", the same loop
is modelled once more with an explicit store: a heap is a list of
records, an address is an index into it, allocation appends, and the
dynamically-typed compatibility_score field (whose float() conversion
is the one failure point of the loop body) is a tagged value.  The
exception path of the source's try/except returns the caller's list
object; allocations made before the exception become unreachable
garbage, so the error case is modelled with the original heap. -/

/-- A dynamically typed field value. -/
inductive PVal where
  | num (q : ℚ)
  | str (s : String)
deriving DecidableEq

/-- One recommendation dict on the heap. -/
structure RecD where
  name : String
  score : PVal
deriving DecidableEq

/-- float(v or 0.0): the falsy values 0 and "" become 0.0; a numeric
string is parsed; any other string raises (error). -/
def pyFloatOr0 : PVal → Except Unit ℚ
  | .num q => .ok q
  | .str s =>
    if s = "" then .ok 0
    else
      match pyFloat s with
      | some q => .ok q
      | none => .error ()

/-- Sort key x.get('compatibility_score', 0.0) read through the heap
(every address sorted by the blender holds a freshly written numeric
score). -/
def heap_key (h : List RecD) (a : ℕ) : ℚ :=
  match h.get? a with
  | some r =>
    match r.score with
    | .num q => q
    | .str _ => 0
  | none => 0

/-- The blending loop over input addresses: read the record, convert
its score, compute the adjusted value exactly as blend_one does, copy
the dict with the rounded score into a fresh cell, and collect the
fresh addresses in order.  Any conversion failure aborts the loop with
an error (the source's exception). -/
def blend_loop (w pen min_pct : ℚ) (soft : Bool) (sqrtf : ℚ → ℚ)
    (pri_map : List (String × ℚ)) (canon : String → String) :
    List ℕ → List RecD → Except Unit (List RecD × List ℕ)
  | [], h => .ok (h, [])
  | a :: rest, h =>
    match h.get? a with
    | none => .error ()
    | some r =>
      match pyFloatOr0 r.score with
      | .error e => .error e
      | .ok base =>
        let pct := dget pri_map (canon r.name) 0
        let adj :=
          if 0 < base then
            if min_pct ≤ pct then min 1 (base * (1 + w * sqrtf pct))
            else if soft then max 0 (base * pen) else base
          else base
        let nr : RecD := ⟨r.name, .num (round3 adj)⟩
        match blend_loop w pen min_pct soft sqrtf pri_map canon rest (h ++ [nr]) with
        | .error e => .error e
        | .ok (h2, out) => .ok (h2, h.length :: out)

/-- Heap-level _apply_freq_priors (one definition for all three
blenders; they differ only in the canon function and the constants):
empty priors and internal exceptions both return the caller's address
list against the original heap, otherwise the fresh addresses are
stable-sorted descending by their blended scores. -/
def _apply_freq_priors_heap (w pen min_pct : ℚ) (soft : Bool) (sqrtf : ℚ → ℚ)
    (canon : String → String) (top : List (String × ℚ))
    (heap : List RecD) (addrs : List ℕ) : List RecD × List ℕ :=
  match _extract_priors top with
  | none => (heap, addrs)
  | some pri =>
    match blend_loop w pen min_pct soft sqrtf (pri_map_of canon pri) canon addrs heap with
    | .error _ => (heap, addrs)
    | .ok (h2, out) => (h2, sortDescBy (heap_key h2) out)

/-! ## General lemmas about the helpers -/

theorem insertDescBy_perm {α : Type} (key : α → ℚ) (x : α) (l : List α) :
    (insertDescBy key x l).Perm (x :: l) := by
  induction l with
  | nil => simp [insertDescBy]
  | cons y ys ih =>
    by_cases h : key y ≤ key x
    · simp [insertDescBy, h]
    · simp only [insertDescBy, if_neg h]
      exact (ih.cons y).trans (List.Perm.swap x y ys)

theorem sortDescBy_perm {α : Type} (key : α → ℚ) (l : List α) :
    (sortDescBy key l).Perm l := by
  induction l with
  | nil => simp [sortDescBy]
  | cons x xs ih =>
    exact (insertDescBy_perm key x (sortDescBy key xs)).trans (ih.cons x)

theorem insertDescBy_pairwise {α : Type} (key : α → ℚ) (x : α) (l : List α)
    (h : List.Pairwise (fun a b => key b ≤ key a) l) :
    List.Pairwise (fun a b => key b ≤ key a) (insertDescBy key x l) := by
  induction l with
  | nil => simp [insertDescBy]
  | cons y ys ih =>
    rcases List.pairwise_cons.mp h with ⟨hy, hys⟩
    by_cases hcmp : key y ≤ key x
    · simp only [insertDescBy, if_pos hcmp]
      refine List.pairwise_cons.mpr ⟨?_, h⟩
      intro b hb
      rcases List.mem_cons.mp hb with hb | hb
      · exact hb ▸ hcmp
      · exact le_trans (hy b hb) hcmp
    · simp only [insertDescBy, if_neg hcmp]
      refine List.pairwise_cons.mpr ⟨?_, ih hys⟩
      intro b hb
      have hb2 := (insertDescBy_perm key x ys).mem_iff.mp hb
      rcases List.mem_cons.mp hb2 with hb2 | hb2
      · exact hb2 ▸ le_of_lt (lt_of_not_le hcmp)
      · exact hy b hb2

theorem sortDescBy_pairwise {α : Type} (key : α → ℚ) (l : List α) :
    List.Pairwise (fun a b => key b ≤ key a) (sortDescBy key l) := by
  induction l with
  | nil => simp [sortDescBy]
  | cons x xs ih => exact insertDescBy_pairwise key x (sortDescBy key xs) ih

theorem insertAsc_perm (x : ℚ) (l : List ℚ) : (insertAsc x l).Perm (x :: l) := by
  induction l with
  | nil => simp [insertAsc]
  | cons y ys ih =>
    by_cases h : x ≤ y
    · simp [insertAsc, h]
    · simp only [insertAsc, if_neg h]
      exact (ih.cons y).trans (List.Perm.swap x y ys)

theorem pysorted_perm (l : List ℚ) : (pysorted l).Perm l := by
  induction l with
  | nil => simp [pysorted]
  | cons x xs ih => exact (insertAsc_perm x (pysorted xs)).trans (ih.cons x)

theorem insertAsc_pairwise (x : ℚ) (l : List ℚ)
    (h : List.Pairwise (· ≤ ·) l) :
    List.Pairwise (· ≤ ·) (insertAsc x l) := by
  induction l with
  | nil => simp [insertAsc]
  | cons y ys ih =>
    rcases List.pairwise_cons.mp h with ⟨hy, hys⟩
    by_cases hcmp : x ≤ y
    · simp only [insertAsc, if_pos hcmp]
      refine List.pairwise_cons.mpr ⟨?_, h⟩
      intro b hb
      rcases List.mem_cons.mp hb with hb | hb
      · exact hb ▸ hcmp
      · exact le_trans hcmp (hy b hb)
    · simp only [insertAsc, if_neg hcmp]
      refine List.pairwise_cons.mpr ⟨?_, ih hys⟩
      intro b hb
      have hb2 := (insertAsc_perm x ys).mem_iff.mp hb
      rcases List.mem_cons.mp hb2 with hb2 | hb2
      · exact hb2 ▸ le_of_lt (lt_of_not_le hcmp)
      · exact hy b hb2

theorem pysorted_pairwise (l : List ℚ) : List.Pairwise (· ≤ ·) (pysorted l) := by
  induction l with
  | nil => simp [pysorted]
  | cons x xs ih => exact insertAsc_pairwise x (pysorted xs) ih

theorem pysorted_eq_of_perm {l₁ l₂ : List ℚ} (h : l₁.Perm l₂) :
    pysorted l₁ = pysorted l₂ := by
  refine List.eq_of_perm_of_sorted ?_ (pysorted_pairwise l₁) (pysorted_pairwise l₂)
  exact (pysorted_perm l₁).trans (h.trans (pysorted_perm l₂).symm)

theorem pysorted_length (l : List ℚ) : (pysorted l).length = l.length :=
  (pysorted_perm l).length_eq

theorem round3_mono {x y : ℚ} (h : x ≤ y) : round3 x ≤ round3 y := by
  unfold round3
  have hf : ⌊x * 1000 + 1/2⌋ ≤ ⌊y * 1000 + 1/2⌋ := Int.floor_mono (by linarith)
  have : ((⌊x * 1000 + 1/2⌋ : ℚ)) ≤ ((⌊y * 1000 + 1/2⌋ : ℚ)) := by exact_mod_cast hf
  linarith

theorem round3_nonneg {x : ℚ} (h : 0 ≤ x) : 0 ≤ round3 x := by
  have h0 : round3 0 = 0 := by
    unfold round3
    norm_num [Int.floor_eq_iff]
  calc (0 : ℚ) = round3 0 := h0.symm
    _ ≤ round3 x := round3_mono h

theorem round3_le_one {x : ℚ} (h : x ≤ 1) : round3 x ≤ 1 := by
  have h1 : round3 1 = 1 := by
    unfold round3
    norm_num [Int.floor_eq_iff]
  calc round3 x ≤ round3 1 := round3_mono h
    _ = 1 := h1

/-! ## Claim C9 -/

/-- C9: for every reaction type outside the five canonical categories,
the ligand and solvent compatibility parsers return the neutral default
0.5 whatever the compatibility string is, and so does the base parser
once its special case-insensitive mapping of 'ullmann' to
Cross-Coupling is excluded; the parsers are total functions (the
unknown-type branch returns before the string is ever parsed), so no
exception escapes even for unparseable compatibility strings. -/
theorem C9_unknown_type_neutral_default (reaction_type compatibility_str : String)
    (h : reaction_type ∉ reaction_types5) :
    parse_reaction_compatibility compatibility_str reaction_type = 1/2 ∧
    parse_solvent_reaction_compatibility compatibility_str reaction_type = 1/2 ∧
    (pylower reaction_type ≠ "ullmann" →
      parse_base_reaction_compatibility compatibility_str reaction_type = 1/2) := by
  refine ⟨?_, ?_, ?_⟩
  · simp [parse_reaction_compatibility, h]
  · simp [parse_solvent_reaction_compatibility, h]
  · intro hl
    simp [parse_base_reaction_compatibility, hl, h]

/-- C9 witness: the concrete non-canonical reaction type
"C-N Coupling - Ullmann" together with an unparseable compatibility
string yields 0.5 from all three parsers. -/
theorem C9_unknown_type_neutral_default_witness :
    "C-N Coupling - Ullmann" ∉ reaction_types5 ∧
    parse_reaction_compatibility "not,a,number" "C-N Coupling - Ullmann" = 1/2 ∧
    parse_solvent_reaction_compatibility "not,a,number" "C-N Coupling - Ullmann" = 1/2 ∧
    parse_base_reaction_compatibility "not,a,number" "C-N Coupling - Ullmann" = 1/2 := by
  have hmem : "C-N Coupling - Ullmann" ∉ reaction_types5 := by decide
  have h := C9_unknown_type_neutral_default "C-N Coupling - Ullmann" "not,a,number" hmem
  exact ⟨hmem, h.1, h.2.1, h.2.2 (by decide)⟩

/-! ## Claim C8 -/

/-- C8 counterexample: the base weight table for Cross-Coupling is a
reaction-category-specific feature-weight table used by the
weighted-similarity scorer, yet its weights sum to 0.6, not 1.0. -/
theorem C8_base_weights_not_normalized :
    ("Cross-Coupling",
      [("Basicity (pKaH)", (0.35 : ℚ)), ("Nucleophilicity Index", 0.25)]) ∈
        BASE_REACTION_WEIGHTS ∧
    weights_total [("Basicity (pKaH)", (0.35 : ℚ)), ("Nucleophilicity Index", 0.25)] = 3/5 ∧
    (3/5 : ℚ) ≠ 1 := by
  refine ⟨?_, ?_, ?_⟩
  · simp [BASE_REACTION_WEIGHTS]
  · norm_num [weights_total]
  · norm_num

/-- C8 (amended): the ligand and solvent per-category weight tables all
sum to 1.0, but the base tables sum to 0.6, 0.2, 0.25, 0.45 and 0.35
respectively; in all three scorers each feature's similarity
contribution is weight * (1 - |a-b| / max(|a|,|b|,1)), summed over the
enumerated feature names that occur in the weight table. -/
theorem C8_weight_tables_and_contribution :
    (∀ t ∈ REACTION_WEIGHTS, weights_total t.2 = 1) ∧
    (∀ t ∈ SOLVENT_REACTION_WEIGHTS, weights_total t.2 = 1) ∧
    BASE_REACTION_WEIGHTS.map (fun t => weights_total t.2) = [3/5, 1/5, 1/4, 9/20, 7/20] ∧
    (∀ f1 f2 w, calculate_weighted_similarity f1 f2 w =
      (ligand_feature_names.enum.map (fun p =>
        match alookup w p.2 with
        | some wt => sim_contribution wt (f1.getD p.1 0) (f2.getD p.1 0)
        | none => 0)).sum) ∧
    (∀ f1 f2 w, calculate_solvent_weighted_similarity f1 f2 w =
      (solvent_feature_names.enum.map (fun p =>
        match alookup w p.2 with
        | some wt => sim_contribution wt (f1.getD p.1 0) (f2.getD p.1 0)
        | none => 0)).sum) ∧
    (∀ f1 f2 w, _weighted_similarity f1 f2 w =
      (base_feature_names.enum.map (fun p =>
        match alookup w p.2 with
        | some wt => sim_contribution wt (f1.getD p.1 0) (f2.getD p.1 0)
        | none => 0)).sum) := by
  have key : ∀ (f1 f2 : List ℚ) (w : List (String × ℚ)) (names : List String) (i : ℕ) (sim : ℚ),
      sim_loop f1 f2 w i names sim =
        sim + ((names.enumFrom i).map (fun p =>
          match alookup w p.2 with
          | some wt => sim_contribution wt (f1.getD p.1 0) (f2.getD p.1 0)
          | none => 0)).sum := by
    intro f1 f2 w names
    induction names with
    | nil => intro i sim; simp [sim_loop]
    | cons feat rest ih =>
      intro i sim
      simp only [sim_loop, List.enumFrom, List.map_cons, List.sum_cons, ih]
      cases h : alookup w feat with
      | none => simp [h]
      | some wt => simp [h]; try ring
  refine ⟨?_, ?_, ?_, ?_, ?_, ?_⟩
  · intro t ht
    fin_cases ht <;> norm_num [weights_total]
  · intro t ht
    fin_cases ht <;> norm_num [weights_total]
  · norm_num [BASE_REACTION_WEIGHTS, weights_total]
  · intro f1 f2 w
    simpa [List.enum] using key f1 f2 w ligand_feature_names 0 0
  · intro f1 f2 w
    simpa [List.enum] using key f1 f2 w solvent_feature_names 0 0
  · intro f1 f2 w
    simpa [List.enum] using key f1 f2 w base_feature_names 0 0

/-! ## Claim C7 -/

/-- C7: the claim says canonicalize turns the micro sign U+00B5 into
the letter "u".  In the source, NFKC normalization (which sends U+00B5
to the Greek letter U+03BC) runs before the substitution
s.replace("µ", "u"), whose pattern is the micro sign U+00B5 itself; the
substitution therefore never fires, and the Greek letter is then
dropped as a non-alphanumeric character: canonicalize("µ") is the empty
string, not "u". -/
theorem C7_micro_sign_is_dropped_not_substituted :
    canonicalize "µ" = "" ∧ canonicalize "µ" ≠ "u" := by
  constructor
  · decide
  · decide

/-! ## Claim C1 -/

/-- C1: contrary to the claim, recommend_ligands_for_reaction applies
no copper-mediated domain adjustment.  For the reaction type
"C-N Coupling - Ullmann" (outside the five canonical categories, and
not remapped by this function), every ligand parses to the neutral
compatibility 0.5, so a repository holding PPh3 (Cross-Coupling slot
0.7) and 1,10-Phenanthroline (slot 0.6) is returned in repository
order with both scores 0.5: PPh3 keeps rank 1 and Phenanthroline rank
2, instead of the claimed adjusted scores 0.5 and 0.8 with
Phenanthroline first. -/
theorem C1_no_copper_domain_adjustment_in_code :
    recommend_ligands_for_reaction
      [⟨"PPh3", "0.7,0.5,0.3,0.4,0.6", "Suzuki coupling"⟩,
       ⟨"1,10-Phenanthroline", "0.6,0.3,0.2,0.4,0.5", "Ullmann coupling"⟩]
      "C-N Coupling - Ullmann" 5 (3/10) =
    [⟨1, "PPh3", 1/2, "Suzuki coupling", "C-N Coupling - Ullmann"⟩,
     ⟨2, "1,10-Phenanthroline", 1/2, "Ullmann coupling", "C-N Coupling - Ullmann"⟩] := by
  have hmem : "C-N Coupling - Ullmann" ∉ reaction_types5 := by decide
  have hp : ∀ s, parse_reaction_compatibility s "C-N Coupling - Ullmann" = 1/2 := by
    intro s
    simp [parse_reaction_compatibility, hmem]
  have hr : round3 (1/2) = 1/2 := by
    norm_num [round3, Int.floor_eq_iff]
  simp [recommend_ligands_for_reaction, hp, List.filterMap, sortDescBy, insertDescBy,
    mk_ligand_recs, hr]
  norm_num [sortDescBy, insertDescBy, mk_ligand_recs, hr]

/-! ## Claim C6 -/

theorem dedupe_seen_nodup_avoids (l : List String) :
    ∀ seen, (dedupe_seen seen l).Nodup ∧ ∀ x ∈ dedupe_seen seen l, x ∉ seen := by
  induction l with
  | nil => intro seen; simp [dedupe_seen]
  | cons x xs ih =>
    intro seen
    by_cases hx : x = ""
    · simpa [dedupe_seen, hx] using ih seen
    · by_cases hseen : x ∈ seen
      · simpa [dedupe_seen, hx, hseen] using ih seen
      · simp only [dedupe_seen, if_neg hx, if_neg hseen]
        rcases ih (x :: seen) with ⟨hnd, havoid⟩
        refine ⟨?_, ?_⟩
        · refine List.nodup_cons.mpr ⟨?_, hnd⟩
          intro hmem
          exact (havoid x hmem) (List.mem_cons_self x seen)
        · intro y hy
          rcases List.mem_cons.mp hy with hy | hy
          · exact hy ▸ hseen
          · intro hys
            exact (havoid y hy) (List.mem_cons_of_mem x hys)

theorem _normalize_field_nodup (name : Option String) (kind : String) :
    (_normalize_field name kind).Nodup :=
  (dedupe_seen_nodup_avoids (_normalize_field_tokens name kind) []).1

theorem rowPairIncrements_eq_counts (ligs sols : List String) (p : String × String) :
    rowPairIncrements ligs sols p = ligs.count p.1 * sols.count p.2 := by
  have inner : ∀ (sols : List String) (lg : String) (acc : ℕ),
      sols.foldl (fun acc2 sv => if (lg, sv) = p then acc2 + 1 else acc2) acc =
        acc + (if lg = p.1 then sols.count p.2 else 0) := by
    intro sols lg
    induction sols with
    | nil => intro acc; simp
    | cons sv rest ihs =>
      intro acc
      simp only [List.foldl_cons, ihs, List.count_cons]
      by_cases h1 : lg = p.1
      · by_cases h2 : sv = p.2
        · simp [Prod.ext_iff, h1, h2, beq_iff_eq]
          omega
        · simp [Prod.ext_iff, h1, h2, beq_iff_eq]
      · simp [Prod.ext_iff, h1]
  have outer : ∀ (ligs : List String) (acc : ℕ),
      ligs.foldl (fun acc lg =>
        sols.foldl (fun acc2 sv => if (lg, sv) = p then acc2 + 1 else acc2) acc) acc =
        acc + ligs.count p.1 * sols.count p.2 := by
    intro ligs
    induction ligs with
    | nil => intro acc; simp
    | cons lg rest ihl =>
      intro acc
      rw [List.foldl_cons, inner sols lg acc, ihl]
      by_cases h1 : lg = p.1
      · simp [h1, List.count_cons, beq_iff_eq]
        ring
      · simp [h1, List.count_cons, beq_iff_eq]
  simpa [rowPairIncrements] using outer ligs 0

/-- C6 (amended): the co-occurrence loops run over the Cartesian
product of the normalized token lists of a row, but _normalize_field
deduplicates those lists first, so a single row increments a
ligand-solvent pair at most once: the per-row increment count equals 1
when both tokens occur in the deduplicated lists and 0 otherwise, never
2, even when the raw ligand cell spells the same token twice. -/
theorem C6_cooccurrence_counts_dedup (ligand solvent : Option String) (p : String × String) :
    rowPairIncrements (_normalize_field ligand "ligand") (_normalize_field solvent "solvent") p =
      if p.1 ∈ _normalize_field ligand "ligand" ∧ p.2 ∈ _normalize_field solvent "solvent"
      then 1 else 0 := by
  rw [rowPairIncrements_eq_counts]
  by_cases h1 : p.1 ∈ _normalize_field ligand "ligand"
  · by_cases h2 : p.2 ∈ _normalize_field solvent "solvent"
    · rw [List.count_eq_one_of_mem (_normalize_field_nodup ligand "ligand") h1,
        List.count_eq_one_of_mem (_normalize_field_nodup solvent "solvent") h2]
      simp [h1, h2]
    · rw [List.count_eq_zero.mpr h2]
      simp [h1, h2]
  · rw [List.count_eq_zero.mpr h1]
    simp [h1]

/-- C6 counterexample: a row of reaction type "Ullmann" whose ligand
cell lists the token "phen" twice and whose solvent cell is "DMSO"
contributes exactly 1 (not 2) to the ligand-solvent co-occurrence
counter at ("phen", "dmso"): the duplicated token survives tokenization
but is removed by the dedupe step of _normalize_field. -/
theorem C6_duplicate_token_counted_once :
    _normalize_field_tokens (some "phen, phen") "ligand" = ["phen", "phen"] ∧
    _normalize_field (some "phen, phen") "ligand" = ["phen"] ∧
    _normalize_field (some "DMSO") "solvent" = ["dmso"] ∧
    co_ligand_solvent_count
      [⟨"Ullmann", none, some "phen, phen", none, some "DMSO", none, none, none⟩]
      ("phen", "dmso") = 1 := by
  refine ⟨by decide, by decide, by decide, by decide⟩

/-! ## Claim C5 -/

/-- C5: for every non-empty collected array, numeric_stats reports
median, p25 and p75 as nearest-rank selections at index floor((n-1)*q)
(q = 0.5, 0.25, 0.75) on the sorted winsorized array, where
winsorization clamps every collected value into [lo, hi] with lo and hi
the 5th- and 95th-percentile values of the collected array, and reports
n as the count of collected values before winsorization. -/
theorem C5_numeric_stats_winsorized (arr : List ℚ) (h : arr ≠ []) (lo hi : ℚ)
    (hlo : _pctile (pysorted arr) (1/20) = some lo)
    (hhi : _pctile (pysorted arr) (19/20) = some hi) :
    numeric_stats_entry arr =
      { median := (pysorted (arr.map (winsor_clamp lo hi))).get? (pctile_idx arr.length (1/2))
        p25 := (pysorted (arr.map (winsor_clamp lo hi))).get? (pctile_idx arr.length (1/4))
        p75 := (pysorted (arr.map (winsor_clamp lo hi))).get? (pctile_idx arr.length (3/4))
        n := arr.length } := by
  have hw : _winsorize arr = (pysorted arr).map (winsor_clamp lo hi) := by
    simp only [_winsorize, if_neg h, hlo, hhi]
  have hperm : ((pysorted arr).map (winsor_clamp lo hi)).Perm (arr.map (winsor_clamp lo hi)) :=
    (pysorted_perm arr).map (winsor_clamp lo hi)
  have hsorteq : pysorted ((pysorted arr).map (winsor_clamp lo hi)) =
      pysorted (arr.map (winsor_clamp lo hi)) := pysorted_eq_of_perm hperm
  have hlen : ((pysorted arr).map (winsor_clamp lo hi)).length = arr.length := by
    simp [pysorted_length]
  have hne : (pysorted arr).map (winsor_clamp lo hi) ≠ [] := by
    intro hc
    apply h
    have hlc := congrArg List.length hc
    simp only [hlen, List.length_nil] at hlc
    exact List.length_eq_zero.mp hlc
  simp only [numeric_stats_entry, hw, _pctile, if_neg hne, hsorteq, hlen]

/-- C5 witness: the collected array [3, 1, 2] has 5th-percentile value
1 and 95th-percentile value 2, so 3 is clamped down to 2; the stats are
median 2, p25 1, p75 2 with n = 3. -/
theorem C5_numeric_stats_winsorized_witness :
    ([3, 1, 2] : List ℚ) ≠ [] ∧
    numeric_stats_entry [3, 1, 2] = { median := some 2, p25 := some 1, p75 := some 2, n := 3 } := by
  have hs : pysorted ([3, 1, 2] : List ℚ) = [1, 2, 3] := by
    norm_num [pysorted, insertAsc]
  have hidx05 : pctile_idx 3 (1/20) = 0 := by norm_num [pctile_idx]
  have hidx95 : pctile_idx 3 (19/20) = 1 := by norm_num [pctile_idx]
  have hidx50 : pctile_idx 3 (1/2) = 1 := by norm_num [pctile_idx]
  have hidx25 : pctile_idx 3 (1/4) = 0 := by norm_num [pctile_idx]
  have hidx75 : pctile_idx 3 (3/4) = 1 := by norm_num [pctile_idx]
  have hlo : _pctile (pysorted [3, 1, 2]) (1/20) = some 1 := by
    rw [hs]
    simp only [_pctile, if_neg (by simp : ([1, 2, 3] : List ℚ) ≠ [])]
    norm_num [pysorted, insertAsc, hidx05]
  have hhi : _pctile (pysorted [3, 1, 2]) (19/20) = some 2 := by
    rw [hs]
    simp only [_pctile, if_neg (by simp : ([1, 2, 3] : List ℚ) ≠ [])]
    norm_num [pysorted, insertAsc, hidx95]
  have h := C5_numeric_stats_winsorized [3, 1, 2] (by simp) 1 2 hlo hhi
  refine ⟨by simp, ?_⟩
  rw [h]
  have hmap : ([3, 1, 2] : List ℚ).map (winsor_clamp 1 2) = [2, 1, 2] := by
    norm_num [winsor_clamp]
  have hsort2 : pysorted ([2, 1, 2] : List ℚ) = [1, 2, 2] := by
    norm_num [pysorted, insertAsc]
  simp [hmap, hsort2, hidx50, hidx25, hidx75]
  norm_num [pctile_idx]

/-! ## Claim C2 -/

/-- C2: for every recommendation whose canonicalized name is found in
the canonicalized priors map with pct at or above the support
threshold, and whose base score is positive, the solvent prior blender
replaces its score by min(1, base * (1 + w * sqrt(pct))) (rounded, like
every score it emits, to three decimals), and the resulting record is
in the returned list. -/
theorem C2_solvent_prior_boost_formula
    (sqrtf : ℚ → ℚ) (cfg : AnalyticsCfg) (solvents : List Rec) (top : List (String × ℚ))
    (r : Rec) (pri : List (String × ℚ)) (pct : ℚ)
    (hr : r ∈ solvents)
    (hpri : _extract_priors top = some pri)
    (hlook : alookup (pri_map_of _canon_solvent pri) (_canon_solvent r.name) = some pct)
    (hmin : min_pct_of cfg ≤ pct)
    (hbase : 0 < r.compatibility_score) :
    (⟨r.name,
      round3 (min 1 (r.compatibility_score * (1 + cfg.w_freq_solvents * sqrtf pct)))⟩ : Rec) ∈
      _apply_freq_priors_solvents sqrtf cfg solvents top := by
  simp only [_apply_freq_priors_solvents, hpri]
  apply (sortDescBy_perm _ _).mem_iff.mpr
  have hb : blend_one cfg.w_freq_solvents cfg.penalty_factor_solvents (min_pct_of cfg)
      cfg.soft_penalty sqrtf (pri_map_of _canon_solvent pri) _canon_solvent r =
      ⟨r.name,
        round3 (min 1 (r.compatibility_score * (1 + cfg.w_freq_solvents * sqrtf pct)))⟩ := by
    simp only [blend_one, dget, hlook, if_pos hbase, if_pos hmin]
  rw [← hb]
  exact List.mem_map_of_mem _ hr

/-- C2 witness: the spec's example scenario.  With priors entry
("dmf", pct 0.5), solvent weight 0.45, base solvent score 0.6, and the
correctly rounded double value of sqrt(0.5), the blended score is
round3(min(1, 0.6*(1+0.45*sqrt(0.5)))) = 0.791. -/
theorem C2_solvent_prior_boost_formula_witness :
    (⟨"DMF", 791/1000⟩ : Rec) ∈
      _apply_freq_priors_solvents (fun _ => 7071067811865476/10000000000000000)
        default_analytics_cfg [⟨"DMF", 6/10⟩] [("dmf", 1/2)] := by
  have hstrip : pystrip "dmf" = "dmf" := by decide
  have hpri : _extract_priors [("dmf", (1/2 : ℚ))] = some [("dmf", 1/2)] := by
    simp only [_extract_priors, List.foldl_cons, List.foldl_nil, hstrip]
    norm_num [dinsert]
    decide
  have hcanon : _canon_solvent "DMF" = "dmf" := by decide
  have hcanon2 : _canon_solvent "dmf" = "dmf" := by decide
  have hlook : alookup (pri_map_of _canon_solvent [("dmf", (1/2 : ℚ))])
      (_canon_solvent "DMF") = some (1/2) := by
    simp [pri_map_of, dinsert, hcanon, hcanon2, alookup]
  have hmin : min_pct_of default_analytics_cfg ≤ (1/2 : ℚ) := by
    norm_num [min_pct_of, default_analytics_cfg]
  have h := C2_solvent_prior_boost_formula (fun _ => 7071067811865476/10000000000000000)
    default_analytics_cfg [⟨"DMF", 6/10⟩] [("dmf", 1/2)] ⟨"DMF", 6/10⟩ [("dmf", 1/2)] (1/2)
    (by simp) hpri hlook hmin (by norm_num)
  have hval : round3 (min 1 ((6/10 : ℚ) *
      (1 + default_analytics_cfg.w_freq_solvents * (7071067811865476/10000000000000000)))) =
      791/1000 := by
    rw [min_eq_right (by norm_num [default_analytics_cfg])]
    norm_num [round3, default_analytics_cfg]
  rw [hval] at h
  exact h

/-! ## Claim C3 -/

theorem blend_one_score_bounded (w pen min_pct : ℚ) (soft : Bool) (sqrtf : ℚ → ℚ)
    (pm : List (String × ℚ)) (canon : String → String) (r : Rec)
    (hw : 0 ≤ w) (hpen0 : 0 ≤ pen) (hpen1 : pen ≤ 1)
    (hsq : ∀ q, 0 ≤ sqrtf q)
    (h0 : 0 ≤ r.compatibility_score) (h1 : r.compatibility_score ≤ 1) :
    0 ≤ (blend_one w pen min_pct soft sqrtf pm canon r).compatibility_score ∧
    (blend_one w pen min_pct soft sqrtf pm canon r).compatibility_score ≤ 1 := by
  simp only [blend_one]
  set base := r.compatibility_score with hbase
  set pct := dget pm (canon r.name) 0 with hpct
  have key : ∀ adj : ℚ, 0 ≤ adj → adj ≤ 1 → 0 ≤ round3 adj ∧ round3 adj ≤ 1 := by
    intro adj ha hb
    exact ⟨round3_nonneg ha, round3_le_one hb⟩
  by_cases hpos : 0 < base
  · by_cases hmin : min_pct ≤ pct
    · simp only [if_pos hpos, if_pos hmin]
      apply key
      · refine le_min (by norm_num) ?_
        have hs : 0 ≤ sqrtf pct := hsq pct
        have : (0 : ℚ) ≤ 1 + w * sqrtf pct := by positivity
        positivity
      · exact min_le_left 1 _
    · simp only [if_pos hpos, if_neg hmin]
      cases soft with
      | true =>
        simp only [if_pos rfl]
        apply key
        · exact le_max_left 0 _
        · refine max_le (by norm_num) ?_
          exact mul_le_one₀ h1 hpen0 hpen1
      | false =>
        simp only [Bool.false_eq_true, if_neg (by simp : ¬False)]
        exact key base h0 h1
  · simp only [if_neg hpos]
    exact key base h0 h1

/-- C3 counterexample: the claim quantifies over every input
recommendation list; a solvent whose incoming compatibility score is
-0.5 takes the non-positive-base branch of the blender, is copied
through unchanged, and is returned with score -0.5, outside [0,1]. -/
theorem C3_score_outside_unit_interval :
    _apply_freq_priors_solvents (fun _ => 0) default_analytics_cfg
      [⟨"s", -(1/2)⟩] [("x", 1)] = [⟨"s", -(1/2)⟩] ∧
    ¬ (0 ≤ (-(1/2) : ℚ)) := by
  constructor
  · have hstrip : pystrip "x" = "x" := by decide
    have hpri : _extract_priors [("x", (1 : ℚ))] = some [("x", 1)] := by
      simp only [_extract_priors, List.foldl_cons, List.foldl_nil, hstrip]
      norm_num [dinsert]
      decide
    have hround : round3 (-(1/2)) = -(1/2) := by
      norm_num [round3]
    simp only [_apply_freq_priors_solvents, hpri, List.map_cons, List.map_nil, blend_one]
    norm_num [sortDescBy, insertDescBy, hround]
  · norm_num

/-- C3 (amended): whenever the incoming scores lie in [0,1], the
weights are nonnegative, the penalty factors lie in [0,1] (as the
configured defaults do) and the square root is nonnegative, every
compatibility score produced by the three prior-blending functions lies
in [0,1]. -/
theorem C3_blended_scores_in_unit_interval
    (sqrtf : ℚ → ℚ) (cfg : AnalyticsCfg)
    (hsq : ∀ q, 0 ≤ sqrtf q)
    (hws : 0 ≤ cfg.w_freq_solvents) (hwb : 0 ≤ cfg.w_freq_bases)
    (hwl : 0 ≤ cfg.w_freq_ligands)
    (hps0 : 0 ≤ cfg.penalty_factor_solvents) (hps1 : cfg.penalty_factor_solvents ≤ 1)
    (hpb0 : 0 ≤ cfg.penalty_factor_bases) (hpb1 : cfg.penalty_factor_bases ≤ 1)
    (hpl0 : 0 ≤ cfg.penalty_factor_ligands) (hpl1 : cfg.penalty_factor_ligands ≤ 1)
    (recs : List Rec) (top : List (String × ℚ))
    (hin : ∀ r ∈ recs, 0 ≤ r.compatibility_score ∧ r.compatibility_score ≤ 1) :
    (∀ r ∈ _apply_freq_priors_solvents sqrtf cfg recs top,
      0 ≤ r.compatibility_score ∧ r.compatibility_score ≤ 1) ∧
    (∀ r ∈ _apply_freq_priors_bases sqrtf cfg recs top,
      0 ≤ r.compatibility_score ∧ r.compatibility_score ≤ 1) ∧
    (∀ r ∈ _apply_freq_priors_ligands sqrtf cfg recs top,
      0 ≤ r.compatibility_score ∧ r.compatibility_score ≤ 1) := by
  refine ⟨?_, ?_, ?_⟩
  · intro r hr
    simp only [_apply_freq_priors_solvents] at hr
    cases hpri : _extract_priors top with
    | none =>
      rw [hpri] at hr
      exact hin r hr
    | some pri =>
      rw [hpri] at hr
      have hr2 := (sortDescBy_perm _ _).mem_iff.mp hr
      rcases List.mem_map.mp hr2 with ⟨r0, hr0, hblend⟩
      rw [← hblend]
      exact blend_one_score_bounded _ _ _ _ _ _ _ r0 hws hps0 hps1 hsq
        (hin r0 hr0).1 (hin r0 hr0).2
  · intro r hr
    simp only [_apply_freq_priors_bases] at hr
    cases hpri : _extract_priors top with
    | none =>
      rw [hpri] at hr
      exact hin r hr
    | some pri =>
      rw [hpri] at hr
      have hr2 := (sortDescBy_perm _ _).mem_iff.mp hr
      rcases List.mem_map.mp hr2 with ⟨r0, hr0, hblend⟩
      rw [← hblend]
      exact blend_one_score_bounded _ _ _ _ _ _ _ r0 hwb hpb0 hpb1 hsq
        (hin r0 hr0).1 (hin r0 hr0).2
  · intro r hr
    simp only [_apply_freq_priors_ligands] at hr
    cases hpri : _extract_priors top with
    | none =>
      rw [hpri] at hr
      exact hin r hr
    | some pri =>
      rw [hpri] at hr
      have hr2 := (sortDescBy_perm _ _).mem_iff.mp hr
      rcases List.mem_map.mp hr2 with ⟨r0, hr0, hblend⟩
      rw [← hblend]
      exact blend_one_score_bounded _ _ _ _ _ _ _ r0 hwl hpl0 hpl1 hsq
        (hin r0 hr0).1 (hin r0 hr0).2

/-- C3 witness: a solvent with base score 0.5 and priors pct 1 is
blended to round3(min(1, 0.5*1.45)) = 0.725, which the bound theorem
confirms lies in [0,1]. -/
theorem C3_blended_scores_in_unit_interval_witness :
    (⟨"a", 29/40⟩ : Rec) ∈
      _apply_freq_priors_solvents (fun _ => 1) default_analytics_cfg
        [⟨"a", 1/2⟩] [("a", 1)] ∧
    0 ≤ ((29 : ℚ)/40) ∧ ((29 : ℚ)/40) ≤ 1 := by
  have hstrip : pystrip "a" = "a" := by decide
  have hpri : _extract_priors [("a", (1 : ℚ))] = some [("a", 1)] := by
    simp only [_extract_priors, List.foldl_cons, List.foldl_nil, hstrip]
    norm_num [dinsert]
    decide
  have hcanon : _canon_solvent "a" = "a" := by decide
  have hval : round3 (min 1 ((1/2 : ℚ) * (1 + 45/100 * 1))) = 29/40 := by
    rw [min_eq_right (by norm_num)]
    norm_num [round3]
  have hval2 : round3 ((29 : ℚ)/40) = 29/40 := by
    norm_num [round3]
  have hmem : (⟨"a", 29/40⟩ : Rec) ∈
      _apply_freq_priors_solvents (fun _ => 1) default_analytics_cfg
        [⟨"a", 1/2⟩] [("a", 1)] := by
    simp only [_apply_freq_priors_solvents, hpri, List.map_cons, List.map_nil, blend_one,
      pri_map_of, List.foldl_cons, List.foldl_nil, dinsert, dget, hcanon, alookup,
      default_analytics_cfg]
    norm_num [sortDescBy, insertDescBy, hval, hval2, min_pct_of]
  have h := (C3_blended_scores_in_unit_interval (fun _ => 1) default_analytics_cfg
    (fun _ => by norm_num)
    (by norm_num [default_analytics_cfg]) (by norm_num [default_analytics_cfg])
    (by norm_num [default_analytics_cfg]) (by norm_num [default_analytics_cfg])
    (by norm_num [default_analytics_cfg]) (by norm_num [default_analytics_cfg])
    (by norm_num [default_analytics_cfg]) (by norm_num [default_analytics_cfg])
    (by norm_num [default_analytics_cfg])
    [⟨"a", 1/2⟩] [("a", 1)]
    (by intro r hr; simp at hr; rw [hr]; norm_num)).1 ⟨"a", 29/40⟩ hmem
  exact ⟨hmem, h⟩

/-! ## Claim C4 -/

/-- The square-root values math.sqrt produces at the two pct inputs of
the capped-tie scenario (both are exact in double precision). -/
def sqrt_tie_scenario (q : ℚ) : ℚ :=
  if q = 1 then 1 else if q = (1/4 : ℚ) then 1/2 else 0

theorem tie_scenario_priors :
    _extract_priors [("s1", (1/4 : ℚ)), ("s2", 1)] = some [("s1", 1/4), ("s2", 1)] := by
  have hstrip1 : pystrip "s1" = "s1" := by decide
  have hstrip2 : pystrip "s2" = "s2" := by decide
  have hne1 : ¬ (("s1" : String) = "") := by decide
  have hne2 : ¬ (("s2" : String) = "") := by decide
  have hne12 : ¬ (("s1" : String) = "s2") := by decide
  simp only [_extract_priors, List.foldl_cons, List.foldl_nil, hstrip1, hstrip2]
  norm_num [dinsert, hne1, hne2, hne12]
  simp

theorem tie_scenario_pri_map :
    pri_map_of _canon_solvent [("s1", (1/4 : ℚ)), ("s2", 1)] = [("s1", 1/4), ("s2", 1)] := by
  have hc1 : _canon_solvent "s1" = "s1" := by decide
  have hc2 : _canon_solvent "s2" = "s2" := by decide
  have hne12 : ¬ (("s1" : String) = "s2") := by decide
  simp [pri_map_of, dinsert, hc1, hc2, hne12]

theorem tie_scenario_blend_s1 :
    blend_one default_analytics_cfg.w_freq_solvents default_analytics_cfg.penalty_factor_solvents
      (min_pct_of default_analytics_cfg) default_analytics_cfg.soft_penalty sqrt_tie_scenario
      (pri_map_of _canon_solvent [("s1", (1/4 : ℚ)), ("s2", 1)]) _canon_solvent ⟨"s1", 9/10⟩ =
      ⟨"s1", 1⟩ := by
  have hc1 : _canon_solvent "s1" = "s1" := by decide
  have hlook : alookup [("s1", (1/4 : ℚ)), ("s2", 1)] "s1" = some (1/4) := by
    simp [alookup]
  simp only [tie_scenario_pri_map, blend_one, dget, hc1, hlook]
  norm_num [default_analytics_cfg, min_pct_of, sqrt_tie_scenario, round3]

theorem tie_scenario_blend_s2 :
    blend_one default_analytics_cfg.w_freq_solvents default_analytics_cfg.penalty_factor_solvents
      (min_pct_of default_analytics_cfg) default_analytics_cfg.soft_penalty sqrt_tie_scenario
      (pri_map_of _canon_solvent [("s1", (1/4 : ℚ)), ("s2", 1)]) _canon_solvent ⟨"s2", 9/10⟩ =
      ⟨"s2", 1⟩ := by
  have hc2 : _canon_solvent "s2" = "s2" := by decide
  have hne12 : ¬ (("s2" : String) = "s1") := by decide
  have hlook : alookup [("s1", (1/4 : ℚ)), ("s2", 1)] "s2" = some 1 := by
    simp [alookup, hne12]
  simp only [tie_scenario_pri_map, blend_one, dget, hc2, hlook]
  norm_num [default_analytics_cfg, min_pct_of, sqrt_tie_scenario, round3]

theorem tie_scenario_output :
    _apply_freq_priors_solvents sqrt_tie_scenario default_analytics_cfg
      [⟨"s1", 9/10⟩, ⟨"s2", 9/10⟩] [("s1", 1/4), ("s2", 1)] = [⟨"s1", 1⟩, ⟨"s2", 1⟩] := by
  simp only [_apply_freq_priors_solvents, tie_scenario_priors, List.map_cons, List.map_nil,
    tie_scenario_blend_s1, tie_scenario_blend_s2]
  norm_num [sortDescBy, insertDescBy]

/-- C4 (amended): for two recommendations with equal base score whose
pct values both reach the support threshold, the one with the higher
pct never receives a strictly smaller blended score (given the solvent
weight is nonnegative and the square root is monotone between the two
pct values); since the re-sort is stable, the higher-pct entry can
still be placed at a later position, but only when the two rounded
blended scores are exactly equal (for example when both boosts cap at
1.0). -/
theorem C4_prior_blending_monotone_in_pct
    (sqrtf : ℚ → ℚ) (cfg : AnalyticsCfg) (solvents : List Rec) (top : List (String × ℚ))
    (a b : Rec) (pri : List (String × ℚ)) (pctA pctB : ℚ)
    (hpri : _extract_priors top = some pri)
    (hA : alookup (pri_map_of _canon_solvent pri) (_canon_solvent a.name) = some pctA)
    (hB : alookup (pri_map_of _canon_solvent pri) (_canon_solvent b.name) = some pctB)
    (hminB : min_pct_of cfg ≤ pctB)
    (hbase : a.compatibility_score = b.compatibility_score)
    (hord : pctB ≤ pctA)
    (hw : 0 ≤ cfg.w_freq_solvents)
    (hsq : sqrtf pctB ≤ sqrtf pctA) :
    (blend_one cfg.w_freq_solvents cfg.penalty_factor_solvents (min_pct_of cfg)
        cfg.soft_penalty sqrtf (pri_map_of _canon_solvent pri) _canon_solvent b).compatibility_score ≤
      (blend_one cfg.w_freq_solvents cfg.penalty_factor_solvents (min_pct_of cfg)
        cfg.soft_penalty sqrtf (pri_map_of _canon_solvent pri) _canon_solvent a).compatibility_score ∧
    (List.Sublist
        [blend_one cfg.w_freq_solvents cfg.penalty_factor_solvents (min_pct_of cfg)
          cfg.soft_penalty sqrtf (pri_map_of _canon_solvent pri) _canon_solvent b,
         blend_one cfg.w_freq_solvents cfg.penalty_factor_solvents (min_pct_of cfg)
          cfg.soft_penalty sqrtf (pri_map_of _canon_solvent pri) _canon_solvent a]
        (_apply_freq_priors_solvents sqrtf cfg solvents top) →
      (blend_one cfg.w_freq_solvents cfg.penalty_factor_solvents (min_pct_of cfg)
        cfg.soft_penalty sqrtf (pri_map_of _canon_solvent pri) _canon_solvent a).compatibility_score =
      (blend_one cfg.w_freq_solvents cfg.penalty_factor_solvents (min_pct_of cfg)
        cfg.soft_penalty sqrtf (pri_map_of _canon_solvent pri) _canon_solvent b).compatibility_score) := by
  have hminA : min_pct_of cfg ≤ pctA := le_trans hminB hord
  have hmono :
      (blend_one cfg.w_freq_solvents cfg.penalty_factor_solvents (min_pct_of cfg)
        cfg.soft_penalty sqrtf (pri_map_of _canon_solvent pri) _canon_solvent b).compatibility_score ≤
      (blend_one cfg.w_freq_solvents cfg.penalty_factor_solvents (min_pct_of cfg)
        cfg.soft_penalty sqrtf (pri_map_of _canon_solvent pri) _canon_solvent a).compatibility_score := by
    simp only [blend_one, dget, hA, hB, hbase]
    set s := b.compatibility_score with hs
    by_cases hpos : 0 < s
    · simp only [if_pos hpos, if_pos hminA, if_pos hminB]
      apply round3_mono
      apply min_le_min le_rfl
      apply mul_le_mul_of_nonneg_left _ (le_of_lt hpos)
      have := mul_le_mul_of_nonneg_left hsq hw
      linarith
    · simp only [if_neg hpos]
      exact le_rfl
  refine ⟨hmono, ?_⟩
  intro hsub
  simp only [_apply_freq_priors_solvents, hpri] at hsub
  have hpair := List.Pairwise.sublist hsub
    (sortDescBy_pairwise (fun r => r.compatibility_score) _)
  have hba := List.pairwise_cons.mp hpair
  have hle := hba.1 _ (List.mem_singleton_self _)
  exact le_antisymm hle hmono

/-- C4 counterexample: two solvents with equal base score 0.9 and
priors pct 0.25 and 1 (both far above min_support_pct 0.01) both cap
at min(1, ...) = 1 and round to 1.0; the stable re-sort keeps the input
order, so the higher-pct solvent "s2" is returned at the later
position, after the lower-pct "s1". -/
theorem C4_higher_pct_ranked_later_on_tie :
    _apply_freq_priors_solvents sqrt_tie_scenario default_analytics_cfg
      [⟨"s1", 9/10⟩, ⟨"s2", 9/10⟩] [("s1", 1/4), ("s2", 1)] = [⟨"s1", 1⟩, ⟨"s2", 1⟩] ∧
    ((1/4 : ℚ) < 1 ∧ min_pct_of default_analytics_cfg ≤ 1/4) := by
  exact ⟨tie_scenario_output, by norm_num, by norm_num [min_pct_of, default_analytics_cfg]⟩

/-- C4 witness: in the capped scenario of the counterexample the
amended theorem applies and forces the two blended scores to be
equal. -/
theorem C4_prior_blending_monotone_in_pct_witness :
    (blend_one default_analytics_cfg.w_freq_solvents default_analytics_cfg.penalty_factor_solvents
      (min_pct_of default_analytics_cfg) default_analytics_cfg.soft_penalty sqrt_tie_scenario
      (pri_map_of _canon_solvent [("s1", (1/4 : ℚ)), ("s2", 1)]) _canon_solvent
      ⟨"s2", 9/10⟩).compatibility_score =
    (blend_one default_analytics_cfg.w_freq_solvents default_analytics_cfg.penalty_factor_solvents
      (min_pct_of default_analytics_cfg) default_analytics_cfg.soft_penalty sqrt_tie_scenario
      (pri_map_of _canon_solvent [("s1", (1/4 : ℚ)), ("s2", 1)]) _canon_solvent
      ⟨"s1", 9/10⟩).compatibility_score := by
  have hc1 : _canon_solvent "s1" = "s1" := by decide
  have hc2 : _canon_solvent "s2" = "s2" := by decide
  have hne21 : ¬ (("s2" : String) = "s1") := by decide
  have hA : alookup (pri_map_of _canon_solvent [("s1", (1/4 : ℚ)), ("s2", 1)])
      (_canon_solvent "s2") = some 1 := by
    rw [tie_scenario_pri_map, hc2]
    simp [alookup, hne21]
  have hB : alookup (pri_map_of _canon_solvent [("s1", (1/4 : ℚ)), ("s2", 1)])
      (_canon_solvent "s1") = some (1/4) := by
    rw [tie_scenario_pri_map, hc1]
    simp [alookup]
  have hmain := C4_prior_blending_monotone_in_pct sqrt_tie_scenario default_analytics_cfg
    [⟨"s1", 9/10⟩, ⟨"s2", 9/10⟩] [("s1", 1/4), ("s2", 1)]
    ⟨"s2", 9/10⟩ ⟨"s1", 9/10⟩ [("s1", 1/4), ("s2", 1)] 1 (1/4)
    tie_scenario_priors hA hB
    (by norm_num [min_pct_of, default_analytics_cfg]) rfl (by norm_num)
    (by norm_num [default_analytics_cfg])
    (by norm_num [sqrt_tie_scenario])
  apply hmain.2
  rw [tie_scenario_output, tie_scenario_blend_s1, tie_scenario_blend_s2]

/-! ## Claim C10 -/

theorem blend_loop_preserves_prefix (w pen min_pct : ℚ) (soft : Bool) (sqrtf : ℚ → ℚ)
    (pm : List (String × ℚ)) (canon : String → String) :
    ∀ (addrs : List ℕ) (h h2 : List RecD) (out : List ℕ),
      blend_loop w pen min_pct soft sqrtf pm canon addrs h = .ok (h2, out) →
      ∀ i, i < h.length → h2.get? i = h.get? i := by
  intro addrs
  induction addrs with
  | nil =>
    intro h h2 out hok i hi
    simp only [blend_loop, Except.ok.injEq, Prod.mk.injEq] at hok
    rw [← hok.1]
  | cons a rest ih =>
    intro h h2 out hok i hi
    simp only [blend_loop] at hok
    split at hok
    · exact absurd hok (by simp)
    · split at hok
      · exact absurd hok (by simp)
      · split at hok
        · exact absurd hok (by simp)
        · rename_i h2x outx hrec
          simp only [Except.ok.injEq, Prod.mk.injEq] at hok
          have hpre := ih _ h2x outx hrec i (by simp; omega)
          rw [← hok.1, hpre]
          exact List.get?_append hi

theorem blend_loop_outputs_fresh (w pen min_pct : ℚ) (soft : Bool) (sqrtf : ℚ → ℚ)
    (pm : List (String × ℚ)) (canon : String → String) :
    ∀ (addrs : List ℕ) (h h2 : List RecD) (out : List ℕ),
      blend_loop w pen min_pct soft sqrtf pm canon addrs h = .ok (h2, out) →
      ∀ x ∈ out, h.length ≤ x := by
  intro addrs
  induction addrs with
  | nil =>
    intro h h2 out hok x hx
    simp only [blend_loop, Except.ok.injEq, Prod.mk.injEq] at hok
    rw [← hok.2] at hx
    simp at hx
  | cons a rest ih =>
    intro h h2 out hok x hx
    simp only [blend_loop] at hok
    split at hok
    · exact absurd hok (by simp)
    · split at hok
      · exact absurd hok (by simp)
      · split at hok
        · exact absurd hok (by simp)
        · rename_i h2x outx hrec
          simp only [Except.ok.injEq, Prod.mk.injEq] at hok
          rw [← hok.2] at hx
          rcases List.mem_cons.mp hx with hx | hx
          · omega
          · have := ih _ h2x outx hrec x hx
            simp at this
            omega

/-- C10: in the heap model of the three prior-blending functions (they
share this loop and differ only in the canon function and constants),
(a) every cell of the original heap is unchanged by a call, so the
recommendation dicts of the input list are never mutated; (b) when the
blending body raises (the float() conversion of a non-numeric score),
the caller gets back exactly its input address list against the
unchanged heap; and (c) on the successful blending path every returned
address is a freshly allocated copy, never one of the input dicts. -/
theorem C10_priors_no_mutation_exception_safe
    (w pen min_pct : ℚ) (soft : Bool) (sqrtf : ℚ → ℚ) (canon : String → String)
    (top : List (String × ℚ)) (heap : List RecD) (addrs : List ℕ) :
    (∀ i, i < heap.length →
      (_apply_freq_priors_heap w pen min_pct soft sqrtf canon top heap addrs).1.get? i =
        heap.get? i) ∧
    (∀ pri, _extract_priors top = some pri →
      blend_loop w pen min_pct soft sqrtf (pri_map_of canon pri) canon addrs heap = .error () →
      _apply_freq_priors_heap w pen min_pct soft sqrtf canon top heap addrs = (heap, addrs)) ∧
    (∀ pri h2 out, _extract_priors top = some pri →
      blend_loop w pen min_pct soft sqrtf (pri_map_of canon pri) canon addrs heap = .ok (h2, out) →
      ∀ x ∈ (_apply_freq_priors_heap w pen min_pct soft sqrtf canon top heap addrs).2,
        heap.length ≤ x) := by
  refine ⟨?_, ?_, ?_⟩
  · intro i hi
    cases hpri : _extract_priors top with
    | none => simp [_apply_freq_priors_heap, hpri]
    | some pri =>
      cases hloop : blend_loop w pen min_pct soft sqrtf (pri_map_of canon pri) canon addrs heap with
      | error e => simp [_apply_freq_priors_heap, hpri, hloop]
      | ok pr =>
        simp only [_apply_freq_priors_heap, hpri, hloop]
        exact blend_loop_preserves_prefix w pen min_pct soft sqrtf (pri_map_of canon pri) canon
          addrs heap pr.1 pr.2 (by simpa using hloop) i hi
  · intro pri hpri herr
    simp [_apply_freq_priors_heap, hpri, herr]
  · intro pri h2 out hpri hloop x hx
    simp only [_apply_freq_priors_heap, hpri, hloop] at hx
    have hx2 := (sortDescBy_perm (heap_key h2) out).mem_iff.mp hx
    exact blend_loop_outputs_fresh w pen min_pct soft sqrtf (pri_map_of canon pri) canon
      addrs heap h2 out hloop x hx2

/-- C10 witness: a heap holding one recommendation dict whose score is
the non-numeric string "bad" makes the blending body raise inside
float(); the function returns the input address list against the
unchanged heap. -/
theorem C10_priors_no_mutation_exception_safe_witness :
    _apply_freq_priors_heap (45/100) (85/100) (1/100) true (fun _ => 0) _canon_solvent
      [("a", 1)] [⟨"a", .str "bad"⟩] [0] = ([⟨"a", .str "bad"⟩], [0]) := by
  have hstrip : pystrip "a" = "a" := by decide
  have hpri : _extract_priors [("a", (1 : ℚ))] = some [("a", 1)] := by
    simp only [_extract_priors, List.foldl_cons, List.foldl_nil, hstrip]
    norm_num [dinsert]
    decide
  have hf : pyFloat "bad" = none := by decide
  have herr : blend_loop (45/100) (85/100) (1/100) true (fun _ => 0)
      (pri_map_of _canon_solvent [("a", 1)]) _canon_solvent [0] [⟨"a", .str "bad"⟩] =
      .error () := by
    simp [blend_loop, pyFloatOr0, hf]
  exact (C10_priors_no_mutation_exception_safe (45/100) (85/100) (1/100) true (fun _ => 0)
    _canon_solvent [("a", 1)] [⟨"a", .str "bad"⟩] [0]).2.1 [("a", 1)] hpri herr

/-- C8 witness: the ligand Cross-Coupling weight table drawn from
REACTION_WEIGHTS sums to 1. -/
theorem C8_weight_tables_and_contribution_witness :
    weights_total
      [("Cone Angle (°)", (0.25 : ℚ)), ("Electronic Parameter (cm⁻¹)", 0.20),
       ("Bite Angle (°)", 0.15), ("Steric Bulk (Å³)", 0.15),
       ("Donor Strength (pKa)", 0.10), ("Price Category", 0.05),
       ("Coordination Mode", 0.10)] = 1 := by
  exact (C8_weight_tables_and_contribution).1
    ("Cross-Coupling",
      [("Cone Angle (°)", (0.25 : ℚ)), ("Electronic Parameter (cm⁻¹)", 0.20),
       ("Bite Angle (°)", 0.15), ("Steric Bulk (Å³)", 0.15),
       ("Donor Strength (pKa)", 0.10), ("Price Category", 0.05),
       ("Coordination Mode", 0.10)])
    (by simp [REACTION_WEIGHTS])

/-- C6 witness: a row with single tokens "phen" and "DMSO" increments
the ("phen", "dmso") pair exactly once. -/
theorem C6_cooccurrence_counts_dedup_witness :
    rowPairIncrements (_normalize_field (some "phen") "ligand")
      (_normalize_field (some "DMSO") "solvent") ("phen", "dmso") = 1 := by
  have h := C6_cooccurrence_counts_dedup (some "phen") (some "DMSO") ("phen", "dmso")
  rw [h]
  decide
